import Mathlib

/-!
Shallow embedding of the warp transpiler core
(src/passes/literalExpressionEvaluator/rationalLiteral.ts,
src/passes/variableDeclarationExpressionSplitter.ts, src/typeWriter.ts)
together with proofs settling the claims about it.

TypeScript `bigint` values are modelled as `Int`.  JavaScript's `%` and `/`
on `bigint` truncate toward zero, so they are modelled by `Int.tmod` and
`Int.tdiv`; both throw a `RangeError` when the divisor is `0n`, which is
modelled explicitly before the operator is applied.  Thrown exceptions are
modelled by `Except Err`.
-/

/-- The errors the embedded code can raise.  `divisionByZero` is the
`Error('Attempted rational division by 0')` of the `RationalLiteral`
constructor; `syntaxError` is the `SyntaxError` thrown by `BigInt(string)`
on a malformed string; `rangeError` is the `RangeError` thrown by `%` with
a `0n` divisor; `jsTypeError` is a `TypeError` from accessing a property of
`undefined`/`null`; the remaining cases are the transpiler's tagged errors
and `assert` failures. -/
inductive Err where
  | divisionByZero
  | syntaxError
  | rangeError
  | jsTypeError
  | assertionFailure
  | transpileFailed
  | notSupportedYet
  | willNotSupport
deriving DecidableEq, Repr

/-- The state of a `RationalLiteral` instance: the two private `bigint`
fields.  The constructor's normalisation is `mkRational`. -/
structure RationalLiteral where
  numerator : Int
  denominator : Int
deriving DecidableEq, Repr

/-- The `RationalLiteral` constructor: a positive denominator is kept, a
negative denominator negates both components, a zero denominator throws
`Error('Attempted rational division by 0')`. -/
def mkRational (numerator denominator : Int) : Except Err RationalLiteral :=
  if 0 < denominator then .ok ⟨numerator, denominator⟩
  else if denominator < 0 then .ok ⟨-numerator, -denominator⟩
  else .error .divisionByZero

/-- `RationalLiteral.equalValueOf`: cross-multiplied equality test. -/
def RationalLiteral.equalValueOf (a other : RationalLiteral) : Bool :=
  a.numerator * other.denominator = other.numerator * a.denominator

/-- `RationalLiteral.greaterThan`: cross-multiplied comparison. -/
def RationalLiteral.greaterThan (a other : RationalLiteral) : Bool :=
  a.numerator * other.denominator > other.numerator * a.denominator

/-- `RationalLiteral.add`.  The two `%`-guard branches model the
`RangeError` JavaScript raises when the divisor of `%` is `0n` (they are
unreachable on instances built by the constructor, whose denominators are
never zero). -/
def RationalLiteral.add (a other : RationalLiteral) : Except Err RationalLiteral :=
  if a.denominator = other.denominator then
    mkRational (a.numerator + other.numerator) a.denominator
  else if other.denominator = 0 then .error .rangeError
  else if Int.tmod a.denominator other.denominator = 0 then
    mkRational (a.numerator + Int.tdiv (other.numerator * a.denominator) other.denominator)
      a.denominator
  else if a.denominator = 0 then .error .rangeError
  else if Int.tmod other.denominator a.denominator = 0 then
    mkRational (other.numerator + Int.tdiv (a.numerator * other.denominator) a.denominator)
      other.denominator
  else
    mkRational (a.numerator * other.denominator + other.numerator * a.denominator)
      (a.denominator * other.denominator)

/-- `RationalLiteral.subtract`: `add` of the negated operand, which is
itself rebuilt through the constructor. -/
def RationalLiteral.subtract (a other : RationalLiteral) : Except Err RationalLiteral :=
  match mkRational (-other.numerator) other.denominator with
  | .error e => .error e
  | .ok neg => a.add neg

/-- `RationalLiteral.multiply`: componentwise product via the constructor. -/
def RationalLiteral.multiply (a other : RationalLiteral) : Except Err RationalLiteral :=
  mkRational (a.numerator * other.numerator) (a.denominator * other.denominator)

/-- `RationalLiteral.divideBy`: cross product via the constructor; division
by a zero-valued rational makes the constructor throw. -/
def RationalLiteral.divideBy (a other : RationalLiteral) : Except Err RationalLiteral :=
  mkRational (a.numerator * other.denominator) (a.denominator * other.numerator)

/-- `RationalLiteral.toInteger`: the exact quotient, or `null` when the
division is not exact.  The zero-denominator guard models the `RangeError`
of `%` (unreachable on constructed instances). -/
def RationalLiteral.toInteger (a : RationalLiteral) : Except Err (Option Int) :=
  if a.denominator = 0 then .error .rangeError
  else if Int.tmod a.numerator a.denominator = 0 then
    .ok (some (Int.tdiv a.numerator a.denominator))
  else .ok none

/-- `RationalLiteral.exp`.  Returns `null` when the exponent is not an
integer.  `x ** k` on `bigint` is only reached with a positive `k`, so it
is modelled with `Nat` powers. -/
def RationalLiteral.exp (a other : RationalLiteral) : Except Err (Option RationalLiteral) :=
  match other.toInteger with
  | .error e => .error e
  | .ok none => .ok none
  | .ok (some op) =>
    if op = 0 then (mkRational 1 1).map some
    else if 0 < op then
      (mkRational (a.numerator ^ op.toNat) (a.denominator ^ op.toNat)).map some
    else if 0 < a.numerator then
      (mkRational (a.denominator ^ (-op).toNat) (a.numerator ^ (-op).toNat)).map some
    else if a.numerator < 0 then
      (mkRational ((-a.denominator) ^ (-op).toNat) ((-a.numerator) ^ (-op).toNat)).map some
    else (mkRational 0 1).map some

/-- `RationalLiteral.mod`: `(n₁·d₂) % (n₂·d₁)` over `(d₁·d₂)`.  The guard
models the `RangeError` of `%` when `n₂·d₁` is `0n`. -/
def RationalLiteral.mod (a other : RationalLiteral) : Except Err RationalLiteral :=
  if other.numerator * a.denominator = 0 then .error .rangeError
  else
    mkRational (Int.tmod (a.numerator * other.denominator) (other.numerator * a.denominator))
      (a.denominator * other.denominator)

/-! Decimal rendering of a `bigint`, as produced by the template literal
`${x}` in `toString`. -/

/-- One decimal digit character. -/
def digitChar (d : Nat) : Char :=
  if d = 0 then '0' else if d = 1 then '1' else if d = 2 then '2'
  else if d = 3 then '3' else if d = 4 then '4' else if d = 5 then '5'
  else if d = 6 then '6' else if d = 7 then '7' else if d = 8 then '8' else '9'

/-- Most-significant-first decimal digits of `n`; `fuel` bounds the
recursion and is always supplied large enough. -/
def natDigitsAux : Nat → Nat → List Char
  | 0, _ => []
  | fuel + 1, n =>
    if n < 10 then [digitChar n]
    else natDigitsAux fuel (n / 10) ++ [digitChar (n % 10)]

/-- Decimal digit list of a nonnegative integer. -/
def natDecChars (n : Nat) : List Char := natDigitsAux (n + 1) n

/-- Decimal character list of a `bigint`, `-` prefixed when negative. -/
def intDecChars (n : Int) : List Char :=
  if n < 0 then '-' :: natDecChars n.natAbs else natDecChars n.natAbs

/-- Decimal string of a nonnegative integer (used for `${slot}` texts). -/
def natDecRepr (n : Nat) : String := String.mk (natDecChars n)

/-- `RationalLiteral.toString`: the template literal
`${numerator}/${denominator}`. -/
def RationalLiteral.toString (a : RationalLiteral) : String :=
  String.mk (intDecChars a.numerator ++ '/' :: intDecChars a.denominator)

/-! The ECMAScript `StringToBigInt` conversion used by `BigInt(string)`:
whitespace-trimmed; empty means `0n`; `0x`/`0o`/`0b` prefixes admit the
digits of that base with no sign; otherwise an optional sign followed by at
least one decimal digit.  Anything else throws a `SyntaxError`.  Digit
separators `_` are not part of this grammar. -/

/-- JavaScript string whitespace (the cases relevant to ASCII input). -/
def isJsSpace (c : Char) : Bool :=
  c = ' ' || c = '\t' || c = '\n' || c = '\r' || c = '\x0b' || c = '\x0c'

/-- Trim whitespace from both ends. -/
def trimWS (cs : List Char) : List Char :=
  ((cs.dropWhile isJsSpace).reverse.dropWhile isJsSpace).reverse

/-- Value of a hexadecimal digit character. -/
def hexDigitVal (c : Char) : Option Nat :=
  if '0' ≤ c ∧ c ≤ '9' then some (c.toNat - 48)
  else if 'a' ≤ c ∧ c ≤ 'f' then some (c.toNat - 87)
  else if 'A' ≤ c ∧ c ≤ 'F' then some (c.toNat - 55)
  else none

/-- Value of a digit character in the given base. -/
def digitVal (base : Nat) (c : Char) : Option Nat :=
  match hexDigitVal c with
  | none => none
  | some d => if d < base then some d else none

/-- Accumulating digit-list evaluation; `none` on the first non-digit. -/
def digitsValGo (base : Nat) (acc : Nat) : List Char → Option Nat
  | [] => some acc
  | c :: rest =>
    match digitVal base c with
    | none => none
    | some d => digitsValGo base (acc * base + d) rest

/-- Value of a nonempty all-digit character list in the given base. -/
def digitsVal (base : Nat) (cs : List Char) : Option Nat :=
  match cs with
  | [] => none
  | _ => digitsValGo base 0 cs

/-- `BigInt(string)`: `some` value, or `none` for the `SyntaxError` case. -/
def jsBigInt (s : String) : Option Int :=
  let cs := trimWS s.data
  if cs = [] then some 0
  else if ['0', 'x'].isPrefixOf cs then (digitsVal 16 (cs.drop 2)).map Int.ofNat
  else if ['0', 'X'].isPrefixOf cs then (digitsVal 16 (cs.drop 2)).map Int.ofNat
  else if ['0', 'o'].isPrefixOf cs then (digitsVal 8 (cs.drop 2)).map Int.ofNat
  else if ['0', 'O'].isPrefixOf cs then (digitsVal 8 (cs.drop 2)).map Int.ofNat
  else if ['0', 'b'].isPrefixOf cs then (digitsVal 2 (cs.drop 2)).map Int.ofNat
  else if ['0', 'B'].isPrefixOf cs then (digitsVal 2 (cs.drop 2)).map Int.ofNat
  else if ['+'].isPrefixOf cs then (digitsVal 10 (cs.drop 1)).map Int.ofNat
  else if ['-'].isPrefixOf cs then (digitsVal 10 (cs.drop 1)).map (fun n => -(n : Int))
  else (digitsVal 10 cs).map Int.ofNat

/-! JavaScript string helpers used by `stringToLiteralValue`. -/

/-- `String.prototype.startsWith` for a literal prefix. -/
def jsStartsWith (s p : String) : Bool := p.data.isPrefixOf s.data

/-- `String.prototype.includes` for a single-character needle. -/
def jsIncludes (s : String) (c : Char) : Bool := decide (c ∈ s.data)

/-- Split on a separator character (every occurrence). -/
def splitOnCharAux (sep : Char) : List Char → List Char → List (List Char)
  | [], acc => [acc.reverse]
  | c :: rest, acc =>
    if c = sep then acc.reverse :: splitOnCharAux sep rest []
    else splitOnCharAux sep rest (c :: acc)

/-- `String.prototype.split` with a single-character separator (the `limit`
argument of the source is applied by the caller with `List.take`). -/
def jsSplitChar (s : String) (sep : Char) : List String :=
  (splitOnCharAux sep s.data []).map String.mk

/-- Core of `jsReplaceFirst`: replace the first occurrence of `pat`. -/
def replaceFirstAux (pat repl : List Char) : List Char → List Char
  | [] => []
  | c :: rest =>
    if pat.isPrefixOf (c :: rest) then repl ++ (c :: rest).drop pat.length
    else c :: replaceFirstAux pat repl rest

/-- `String.prototype.replace` with a plain-string pattern: only the first
occurrence of the literal pattern is replaced.  In the source the patterns
are the literal texts `/^0+/` and `/0+$` (strings, not regular
expressions), so these calls never find a match in numeric input. -/
def jsReplaceFirst (s pat repl : String) : String :=
  String.mk (replaceFirstAux pat.data repl.data s.data)

/-! `stringToLiteralValue` and its helpers. -/

/-- `intToLiteral`: `BigInt(value)` over denominator `1n`. -/
def intToLiteral (value : String) : Except Err RationalLiteral :=
  match jsBigInt value with
  | none => .error .syntaxError
  | some n => mkRational n 1

/-- `decimalToLiteral`: split on `.`, apply the two (inert, see
`jsReplaceFirst`) `replace` calls, and build
`intPart·decimalPart / 10^len(decimalPart)`. -/
def decimalToLiteral (value : String) : Except Err RationalLiteral :=
  let parts := (jsSplitChar value '.').take 2
  let intPart := jsReplaceFirst (parts.getD 0 "") "/^0+/" ""
  let decimalPart := jsReplaceFirst (parts.getD 1 "") "/0+$" ""
  if intPart = "" ∧ decimalPart = "" then mkRational 0 1
  else
    match jsBigInt (intPart ++ decimalPart) with
    | none => .error .syntaxError
    | some n => mkRational n ((10 : Int) ^ decimalPart.length)

/-- `scientificNotationToLiteral`: split on `e`, parse coefficient and
exponent, and multiply by `10^exponent`.  (The source's `console.log`
calls are output only.)  The `.ok none` case of `exp` would make the
subsequent `multiply` dereference `null`, a `TypeError`; it is unreachable
because the exponent has denominator `1n`. -/
def scientificNotationToLiteral (value : String) : Except Err RationalLiteral :=
  let parts := (jsSplitChar value 'e').take 2
  let p0 := parts.getD 0 ""
  let p1 := parts.getD 1 ""
  match (if jsIncludes p0 '.' then decimalToLiteral p0 else intToLiteral p0) with
  | .error e => .error e
  | .ok coefficient =>
    match jsBigInt p1 with
    | none => .error .syntaxError
    | some exponent =>
      match mkRational 10 1 with
      | .error e => .error e
      | .ok ten =>
        match mkRational exponent 1 with
        | .error e => .error e
        | .ok expLit =>
          match ten.exp expLit with
          | .error e => .error e
          | .ok none => .error .jsTypeError
          | .ok (some rationalExponentFactor) => coefficient.multiply rationalExponentFactor

/-- `stringToLiteralValue`: the separator-stripped copy `tidiedValue` is
used to pick the branch, but each branch receives the ORIGINAL `value`
(exactly as in the source). -/
def stringToLiteralValue (value : String) : Except Err RationalLiteral :=
  let tidiedValue : String := String.mk (value.data.filter (fun c => c != '_'))
  if jsStartsWith tidiedValue "0x" then intToLiteral value
  else if jsIncludes tidiedValue 'e' then scientificNotationToLiteral value
  else if jsIncludes tidiedValue '.' then decimalToLiteral value
  else intToLiteral value

/-! The type translator (src/typeWriter.ts). -/

/-- Storage location component of a `PointerType`. -/
inductive DataLocation where
  | storage
  | memory
  | calldata
  | default
deriving DecidableEq, Repr

/-- The `solc-typed-ast` type-node variants tested by `cairoType`'s
`instanceof` chain. -/
inductive TypeNode where
  | intType (nBits : Nat) (signed : Bool)
  | arrayType (elementT : TypeNode) (length : Option Nat)
  | boolType
  | bytesType
  | stringType
  | addressType
  | builtinType (name : String)
  | builtinStructType (name : String)
  | mappingType (keyType valueType : TypeNode)
  | userDefinedType (name : String) (referencedDeclarationId : Nat)
  | functionType
  | pointerType (toType : TypeNode) (location : DataLocation)
  | tupleType (elements : List TypeNode)

/-- `cairoType`.  `mangler` stands for `canonicalMangler` and `pp` for the
`TypeNode#toString`/`pp` rendering, both defined outside the given sources;
the translator is parametric in them.  `none` is the thrown
`Don't know how to convert type` error (reached by `TupleType`, which the
chain does not test). -/
def cairoType (pp : TypeNode → String) (mangler : String → String) : TypeNode → Option String
  | .intType nBits _ => if 251 < nBits then some "Uint256" else some "felt"
  | .arrayType elementT _ => (cairoType pp mangler elementT).map (fun s => s ++ "*")
  | .boolType => some "felt"
  | .bytesType => some "felt*"
  | .stringType => some "felt"
  | .addressType => some "felt"
  | .builtinType name => some (mangler name)
  | .builtinStructType name => some (mangler name)
  | .mappingType keyType valueType =>
    (cairoType pp mangler valueType).map (fun s => pp keyType ++ " => " ++ s)
  | .userDefinedType name _ => some (mangler name)
  | .functionType => some "felt*"
  | .pointerType toType _ => cairoType pp mangler toType
  | .tupleType _ => none

/-! Shared AST fragments for the two passes. -/

/-- `LiteralKind` of `solc-typed-ast` (the cases the passes construct). -/
inductive LiteralKind where
  | number
  | stringKind
  | boolKind
deriving DecidableEq, Repr

/-- A `VariableDeclaration` node, restricted to the fields the passes
read or set. -/
structure VarDecl where
  id : Nat
  name : String
  typeString : String
  stateVariable : Bool
  constant : Bool
deriving DecidableEq, Repr

/-- The expression nodes handled by the passes.  `storageWriteCall` and
`writeMappingCall` are the call expressions returned by
`ast.cairoUtilFuncGen.storageWrite` / `.writeMapping`.
Modelled from the spec: the utility-function generator (component 4.E) is
not under src/; per the spec it returns a target-language helper call
expression applied to the given arguments, so those calls are embedded as
dedicated constructors carrying exactly their arguments.  `undefinedE`
stands for a JavaScript `undefined` flowing into an expression position.
Fresh node ids handed out by `ast.reserveId()` for these wrapper nodes are
opaque and are omitted. -/
inductive Expression where
  | identifier (typeString name : String) (referencedDeclaration : Option Nat)
  | indexAccess (base : Expression) (index : Option Expression)
  | functionCall (args : List Expression)
  | tupleExpression (vOriginalComponents : List (Option Expression))
  | literalE (typeString : String) (kind : LiteralKind) (hexValue value : String)
  | storageWriteCall (declId : Nat) (slot : Expression) (value : Expression)
  | writeMappingCall (base index : Expression) (keyType valueType : TypeNode) (value : Expression)
  | undefinedE
  | other (tag : String) (children : List Expression)

/-! The storage-variable access rewriter
(class StorageVariableAccessRewriter, method visitAssignment). -/

/-- Hexadecimal digit list of a nonnegative integer (fuelled like
`natDigitsAux`). -/
def natHexAux : Nat → Nat → List Char
  | 0, _ => []
  | fuel + 1, n =>
    if n < 16 then ["0123456789abcdef".data.getD n '0']
    else natHexAux fuel (n / 16) ++ ["0123456789abcdef".data.getD (n % 16) '0']

/-- Modelled from the spec: `toHexString` (src/utils/utils.ts, not under
src/) produces "the hex of `<slot>`": the concatenated hexadecimal codes
of the characters of its argument. -/
def toHexString (s : String) : String :=
  String.mk (s.data.flatMap (fun c => natHexAux (c.toNat + 1) c.toNat))

/-- The slot literal built inline by `visitAssignment`:
`new Literal(id, '', 'Literal', 'int_const <slot>', LiteralKind.Number,
toHexString('<slot>'), '<slot>')`. -/
def slotLiteral (allocation : Nat) : Expression :=
  .literalE ("int_const " ++ natDecRepr allocation) .number
    (toHexString (natDecRepr allocation)) (natDecRepr allocation)

/-- An `Assignment` node: the fields `visitAssignment` reads. -/
structure Assignment where
  vLeftHandSide : Expression
  vRightHandSide : Expression

/-- What `vReferencedDeclaration` resolves an identifier to: a
`VariableDeclaration` node or some other kind of declaration node. -/
inductive RefDecl where
  | varDecl (v : VarDecl)
  | otherNode

/-- The context `visitAssignment` consults: `declOf` resolves a
referenced-declaration id (`vReferencedDeclaration`); `storageAllocations`
is the `storageAllocations` table of the closest `CairoContract` ancestor
(`none` when there is no such ancestor), keyed by the declaration's id;
`typeOf` is `getNodeType(_, ast.compilerVersion)`. -/
structure Ctx where
  declOf : Nat → Option RefDecl
  storageAllocations : Option (Nat → Option Nat)
  typeOf : Expression → TypeNode

/-- The effect of one `visitAssignment` call: `replacedVisitRhs` is
`ast.replaceNode(node, r)` followed by `dispatchVisit` on the original
right-hand side only; `replacedVisitNew` is `ast.replaceNode(node, r)`
followed by `dispatchVisit(r)`; `commonRecursion` is `this.commonVisit`. -/
inductive VisitResult where
  | replacedVisitRhs (replacement : Expression)
  | replacedVisitNew (replacement : Expression)
  | commonRecursion

/-- `StorageVariableAccessRewriter.visitAssignment`. -/
def visitAssignment (ctx : Ctx) (node : Assignment) : Except Err VisitResult :=
  match node.vLeftHandSide with
  | .identifier _ _ refId? =>
    match refId?.bind ctx.declOf with
    | some (.varDecl decl) =>
      if decl.stateVariable then
        match ctx.storageAllocations.bind (fun t => t decl.id) with
        | none => .error .assertionFailure
        | some allocation =>
          .ok (.replacedVisitRhs
            (.storageWriteCall decl.id (slotLiteral allocation) node.vRightHandSide))
      else .ok .commonRecursion
    | _ => .ok .commonRecursion
  | .indexAccess base index? =>
    match ctx.typeOf base with
    | .pointerType (.mappingType keyType valueType) _ =>
      match index? with
      | none => .error .assertionFailure
      | some index =>
        .ok (.replacedVisitNew
          (.writeMappingCall base index keyType valueType node.vRightHandSide))
    | _ => .error .notSupportedYet
  | _ => .ok .commonRecursion

/-! The variable-declaration expression splitter
(class VariableDeclarationExpressionSplitter, method splitDeclaration). -/

/-- A `VariableDeclarationStatement` node: the fields `splitDeclaration`
reads or rebuilds. -/
structure VariableDeclarationStatement where
  assignments : List (Option Nat)
  vDeclarations : List VarDecl
  vInitialValue : Option Expression
  documentation : Option String
  raw : Option String

/-- The statements `splitDeclaration` can return. -/
inductive Statement where
  | varDeclStatement (v : VariableDeclarationStatement)
  | expressionStatement (expression : Expression) (documentation : Option String)
      (raw : Option String)

/-- `documentation` of an emitted statement. -/
def docOf : Statement → Option String
  | .varDeclStatement v => v.documentation
  | .expressionStatement _ d _ => d

/-- `raw` of an emitted statement. -/
def rawOf : Statement → Option String
  | .varDeclStatement v => v.raw
  | .expressionStatement _ _ r => r

/-- Pair each element with its index, starting at `k` (the `tupleIndex`
of the source's `.map((x, i) => ...)` callbacks). -/
def enumFrom (k : Nat) : List α → List (Nat × α)
  | [] => []
  | a :: rest => (k, a) :: enumFrom (k + 1) rest

/-- Index-paired list starting at 0. -/
def enumIdx (l : List α) : List (Nat × α) := enumFrom 0 l

/-- One slot of the `TupleExpression` branch of `splitDeclaration`:
`p = (tupleIndex, declId)`.  A `some none` component is a `null` slot of
`vOriginalComponents`; a `none` lookup is JavaScript `undefined` from
indexing past the end (unreachable for the equal-arity tuples Solidity
guarantees since 0.5.0). -/
def splitSlot (node : VariableDeclarationStatement) (comps : List (Option Expression))
    (p : Nat × Option Nat) : Except Err (Option Statement) :=
  let tupleIndex := p.1
  match p.2 with
  | none =>
    match comps[tupleIndex]? with
    | some none => .ok none
    | some (some exprToAssign) =>
      .ok (some (.expressionStatement exprToAssign
        (if tupleIndex = 0 then node.documentation else none)
        (if tupleIndex = 0 then node.raw else none)))
    | none =>
      .ok (some (.expressionStatement .undefinedE
        (if tupleIndex = 0 then node.documentation else none)
        (if tupleIndex = 0 then node.raw else none)))
  | some declId =>
    match node.vDeclarations.find? (fun child => child.id = declId) with
    | none => .error .assertionFailure
    | some decl =>
      let exprToAssign : Option Expression :=
        match comps[tupleIndex]? with
        | some (some e) => some e
        | _ => none
      .ok (some (.varDeclStatement
        { assignments := [some declId]
          vDeclarations := [decl]
          vInitialValue := exprToAssign
          documentation := if tupleIndex = 0 then node.documentation else none
          raw := if tupleIndex = 0 then node.raw else none }))

/-- The `TupleExpression` branch: map `splitSlot` over the indexed
assignment slots and drop the `null` results (`filter(notNull)`). -/
def splitTupleExpression (node : VariableDeclarationStatement)
    (comps : List (Option Expression)) : Except Err (List Statement) :=
  match (enumIdx node.assignments).mapM (splitSlot node comps) with
  | .error e => .error e
  | .ok l => .ok (l.filterMap id)

/-- Accumulator of the tuple-returning-`FunctionCall` branch: the
`newAssignedIds` and `newDeclarationStatements` arrays, the declarations
pushed onto `node.vDeclarations`, the next `ast.reserveId()` value for
synthesised `VariableDeclaration`s, and the pass's
`lastUsedConstantId` counter. -/
structure TupleSplitState where
  newAssignedIds : List (Option Nat)
  newDeclarationStatements : List Statement
  pushedDeclarations : List VarDecl
  nextId : Nat
  nextConstant : Nat

/-- One slot of the tuple-returning-`FunctionCall` branch
(`node.assignments.map((id, index) => ...)`).  `pp elemType` is
`returnType.elements[index].pp()`; an out-of-range index would make that
call a JavaScript `TypeError`. -/
def splitFunctionCallSlot (pp : TypeNode → String) (node : VariableDeclarationStatement)
    (elements : List TypeNode) (st : TupleSplitState) (p : Nat × Option Nat) :
    Except Err TupleSplitState :=
  match p.2 with
  | none => .ok { st with newAssignedIds := st.newAssignedIds ++ [none] }
  | some declId =>
    match node.vDeclarations.find? (fun d => d.id = declId) with
    | none => .error .assertionFailure
    | some oldDeclaration =>
      match elements[p.1]? with
      | none => .error .jsTypeError
      | some elemType =>
        if oldDeclaration.typeString = pp elemType then
          .ok { st with newAssignedIds := st.newAssignedIds ++ [some declId] }
        else
          let newDeclaration : VarDecl :=
            { id := st.nextId
              name := "__warp_td_" ++ natDecRepr st.nextConstant
              typeString := pp elemType
              stateVariable := false
              constant := true }
          let newStatement : Statement := .varDeclStatement
            { assignments := [some oldDeclaration.id]
              vDeclarations := [oldDeclaration]
              vInitialValue := some (.identifier newDeclaration.typeString
                newDeclaration.name (some newDeclaration.id))
              documentation := none
              raw := none }
          .ok { newAssignedIds := st.newAssignedIds ++ [some newDeclaration.id]
                newDeclarationStatements := st.newDeclarationStatements ++ [newStatement]
                pushedDeclarations := st.pushedDeclarations ++ [newDeclaration]
                nextId := st.nextId + 1
                nextConstant := st.nextConstant + 1 }

/-- The tuple-returning-`FunctionCall` branch: rebuild the assignment ids,
push synthesised declarations, filter `vDeclarations` down to the assigned
ids, and return the (mutated) node followed by the new statements. -/
def splitFunctionCallTuple (pp : TypeNode → String) (reserveIdStart lastUsedConstantId : Nat)
    (node : VariableDeclarationStatement) (elements : List TypeNode) :
    Except Err (List Statement) :=
  match (enumIdx node.assignments).foldlM (splitFunctionCallSlot pp node elements)
      ⟨[], [], [], reserveIdStart, lastUsedConstantId⟩ with
  | .error e => .error e
  | .ok st =>
    let updatedNode : VariableDeclarationStatement :=
      { node with
        assignments := st.newAssignedIds
        vDeclarations := (node.vDeclarations ++ st.pushedDeclarations).filter
          (fun decl => st.newAssignedIds.contains (some decl.id)) }
    .ok (.varDeclStatement updatedNode :: st.newDeclarationStatements)

/-- `VariableDeclarationExpressionSplitter.splitDeclaration`.  `typeOf` is
`getNodeType(_, ast.compilerVersion)`; `reserveIdStart` and
`lastUsedConstantId` model the id supply and the pass's name counter. -/
def splitDeclaration (pp : TypeNode → String) (typeOf : Expression → TypeNode)
    (reserveIdStart lastUsedConstantId : Nat) (node : VariableDeclarationStatement) :
    Except Err (List Statement) :=
  if node.vDeclarations.length = 1 then .ok [.varDeclStatement node]
  else
    match node.vInitialValue with
    | none => .error .assertionFailure
    | some initialValue =>
      match initialValue with
      | .functionCall args =>
        match typeOf (.functionCall args) with
        | .tupleType elements =>
          splitFunctionCallTuple pp reserveIdStart lastUsedConstantId node elements
        | _ => .ok [.varDeclStatement node]
      | .tupleExpression comps => splitTupleExpression node comps
      | _ => .error .transpileFailed

/-- Claim-side (spec-worded) description of one slot of the
`TupleExpression` split, used to state claim C6: an empty slot on both
sides yields nothing, a `null` left-hand slot wraps the component in an
`ExpressionStatement`, and a bound slot yields a single-declaration
`VariableDeclarationStatement` with the component as initialiser when
present. -/
def tupleSlotSpec (node : VariableDeclarationStatement) (comps : List (Option Expression))
    (p : Nat × Option Nat) : Option Statement :=
  match p.2, comps.getD p.1 none with
  | none, none => none
  | none, some e =>
    some (.expressionStatement e (if p.1 = 0 then node.documentation else none)
      (if p.1 = 0 then node.raw else none))
  | some declId, c =>
    (node.vDeclarations.find? (fun d => d.id = declId)).map (fun decl =>
      .varDeclStatement
        { assignments := [some declId]
          vDeclarations := [decl]
          vInitialValue := c
          documentation := if p.1 = 0 then node.documentation else none
          raw := if p.1 = 0 then node.raw else none })

-- Decidable equality of `Except` results, for evaluating the embedded
-- operations at concrete inputs.
deriving instance DecidableEq for Except

/-! Helper lemmas. -/

theorem mkRational_den_pos {n d : Int} {r : RationalLiteral}
    (h : mkRational n d = .ok r) : 0 < r.denominator := by
  unfold mkRational at h
  split_ifs at h with h1 h2
  · simp only [Except.ok.injEq] at h
    subst h; exact h1
  · simp only [Except.ok.injEq] at h
    subst h
    show 0 < -d
    omega

theorem except_map_some_ok {x : Except Err RationalLiteral} {r : RationalLiteral}
    (h : x.map some = .ok (some r)) : x = .ok r := by
  cases x with
  | error e => simp [Except.map] at h
  | ok v => simp [Except.map] at h; rw [h]

theorem add_den_pos {a b r : RationalLiteral} (h : a.add b = .ok r) :
    0 < r.denominator := by
  unfold RationalLiteral.add at h
  split_ifs at h <;> exact mkRational_den_pos h

theorem subtract_den_pos {a b r : RationalLiteral} (h : a.subtract b = .ok r) :
    0 < r.denominator := by
  unfold RationalLiteral.subtract at h
  split at h <;> first
    | exact add_den_pos h
    | cases h

theorem exp_den_pos {a b : RationalLiteral} {r : RationalLiteral}
    (h : a.exp b = .ok (some r)) : 0 < r.denominator := by
  unfold RationalLiteral.exp at h
  split at h <;> first
    | (split_ifs at h <;> exact mkRational_den_pos (except_map_some_ok h))
    | cases h

theorem mod_den_pos {a b r : RationalLiteral} (h : a.mod b = .ok r) :
    0 < r.denominator := by
  unfold RationalLiteral.mod at h
  split at h <;> first
    | exact mkRational_den_pos h
    | cases h

/-- `Int.tmod` of a nonpositive dividend is nonpositive (the JavaScript
`%` takes the dividend's sign). -/
theorem tmod_nonpos_of_nonpos {a : Int} (b : Int) (h : a ≤ 0) : Int.tmod a b ≤ 0 := by
  match a, b with
  | .ofNat m, b =>
    have hm : m = 0 := by
      simpa [Int.ofNat_le] using h
    subst hm
    simp [Int.zero_tmod]
  | .negSucc m, .ofNat n =>
    simp only [Int.tmod]
    exact neg_nonpos.mpr (Int.ofNat_nonneg _)
  | .negSucc m, .negSucc n =>
    simp only [Int.tmod]
    exact neg_nonpos.mpr (Int.ofNat_nonneg _)

/-- Claim C5: every `RationalLiteral` produced by the constructor has a
strictly positive denominator — denominator `0` raises DivisionByZero, a
negative denominator negates both components — and since `add`,
`subtract`, `multiply`, `divideBy`, `exp` and `mod` all return through the
constructor, every successfully returned result satisfies
`0 < denominator`. -/
theorem rational_denominator_invariant :
    (∀ n : Int, mkRational n 0 = .error .divisionByZero) ∧
    (∀ n d : Int, d < 0 → mkRational n d = .ok ⟨-n, -d⟩) ∧
    (∀ (n d : Int) (a b r : RationalLiteral),
      (mkRational n d = .ok r ∨ a.add b = .ok r ∨ a.subtract b = .ok r ∨
        a.multiply b = .ok r ∨ a.divideBy b = .ok r ∨ a.exp b = .ok (some r) ∨
        a.mod b = .ok r) →
      0 < r.denominator) := by
  refine ⟨fun n => rfl, fun n d hd => ?_, ?_⟩
  · unfold mkRational
    have h1 : ¬ 0 < d := by omega
    rw [if_neg h1, if_pos hd]
  · rintro n d a b r (h | h | h | h | h | h | h)
    · exact mkRational_den_pos h
    · exact add_den_pos h
    · exact subtract_den_pos h
    · exact mkRational_den_pos h
    · exact mkRational_den_pos h
    · exact exp_den_pos h
    · exact mod_den_pos h

/-- Witness for C5 at concrete inputs: `1/2 + 1/3 = 5/6` has a positive
denominator, and the constructor applied to denominator `-2` negates both
components. -/
theorem rational_denominator_invariant_witness :
    0 < (⟨5, 6⟩ : RationalLiteral).denominator ∧ mkRational 3 (-2) = .ok ⟨-3, 2⟩ :=
  ⟨rational_denominator_invariant.2.2 0 1 ⟨1, 2⟩ ⟨1, 3⟩ ⟨5, 6⟩
      (.inr (.inl (by decide))),
   rational_denominator_invariant.2.1 3 (-2) (by decide)⟩

/-- Counterexample to claim C2 as stated: at the concrete base `0/1`,
`exp` applied to the negative integer exponent `-1/1` returns `0/1`
instead of raising DivisionByZero (the zero-numerator base falls through
to the final `else`), and applied to the exponent `0/1` — an exponent with
non-negative integer value — it returns `1/1`, whose components are not
`0/1`. -/
theorem exp_zero_base_counterexample :
    (⟨0, 1⟩ : RationalLiteral).exp ⟨-1, 1⟩ = .ok (some ⟨0, 1⟩) ∧
    (⟨0, 1⟩ : RationalLiteral).exp ⟨0, 1⟩ = .ok (some ⟨1, 1⟩) := by
  decide

/-- Claim C2 (amended): `exp` on a base with numerator `0` never raises
DivisionByZero; with an exponent of integer value `k` it returns `1/1`
when `k = 0`, `0/denominator^k` when `k > 0`, and `0/1` when `k < 0`. -/
theorem exp_zero_base (a b : RationalLiteral) (k : Int)
    (hnum : a.numerator = 0) (hden : 0 < a.denominator)
    (hk : b.toInteger = .ok (some k)) :
    a.exp b = .ok (some (if k = 0 then ⟨1, 1⟩
      else if 0 < k then ⟨0, a.denominator ^ k.toNat⟩ else (⟨0, 1⟩ : RationalLiteral))) := by
  unfold RationalLiteral.exp
  rw [hk]
  show (if k = 0 then Except.map some (mkRational 1 1)
    else if 0 < k then
      Except.map some (mkRational (a.numerator ^ k.toNat) (a.denominator ^ k.toNat))
    else if 0 < a.numerator then
      Except.map some (mkRational (a.denominator ^ (-k).toNat) (a.numerator ^ (-k).toNat))
    else if a.numerator < 0 then
      Except.map some
        (mkRational ((-a.denominator) ^ (-k).toNat) ((-a.numerator) ^ (-k).toNat))
    else Except.map some (mkRational 0 1)) = _
  rcases lt_trichotomy k 0 with hneg | h0 | hpos
  · have h1 : ¬ k = 0 := by omega
    have h2 : ¬ 0 < k := by omega
    have h3 : ¬ 0 < a.numerator := by omega
    have h4 : ¬ a.numerator < 0 := by omega
    rw [if_neg h1, if_neg h2, if_neg h3, if_neg h4]
    simp [mkRational, Except.map, h1, h2]
  · subst h0
    simp [mkRational, Except.map]
  · have h1 : ¬ k = 0 := by omega
    rw [if_neg h1, if_pos hpos, hnum]
    have hz : (0 : Int) ^ k.toNat = 0 := zero_pow (by omega)
    have hp : 0 < a.denominator ^ k.toNat := pow_pos hden _
    rw [hz]
    simp [mkRational, hp, Except.map, h1, hpos]

/-- Witness for the amended C2 at a concrete input:
`(0/2) ^ (3/1) = 0/8`. -/
theorem exp_zero_base_witness :
    (⟨0, 2⟩ : RationalLiteral).exp ⟨3, 1⟩ = .ok (some ⟨0, 8⟩) :=
  (exp_zero_base ⟨0, 2⟩ ⟨3, 1⟩ 3 rfl (by decide) (by decide)).trans (by decide)

/-- Claim C10: for rationals `a`, `b` with `b.numerator ≠ 0` (denominators
positive, as the constructor guarantees), `a.mod b` returns numerator
`(a.num·b.den) rem (b.num·a.den)` under truncated remainder and
denominator `a.den·b.den`, and the resulting numerator is zero or carries
the sign of `a`'s numerator regardless of `b`'s sign. -/
theorem mod_truncated_semantics (a b : RationalLiteral) (hb : b.numerator ≠ 0)
    (ha : 0 < a.denominator) (hbd : 0 < b.denominator) :
    a.mod b = .ok ⟨Int.tmod (a.numerator * b.denominator) (b.numerator * a.denominator),
      a.denominator * b.denominator⟩ ∧
    (Int.tmod (a.numerator * b.denominator) (b.numerator * a.denominator) = 0 ∨
     (Int.tmod (a.numerator * b.denominator) (b.numerator * a.denominator)).sign =
       a.numerator.sign) := by
  constructor
  · unfold RationalLiteral.mod
    have hne : ¬ b.numerator * a.denominator = 0 := mul_ne_zero hb (by omega)
    rw [if_neg hne]
    unfold mkRational
    rw [if_pos (mul_pos ha hbd)]
  · rcases lt_trichotomy a.numerator 0 with hlt | heq | hgt
    · have hdvd : a.numerator * b.denominator < 0 := mul_neg_of_neg_of_pos hlt hbd
      have hnp := tmod_nonpos_of_nonpos (b.numerator * a.denominator) (le_of_lt hdvd)
      rcases lt_or_eq_of_le hnp with hneg | h0
      · exact .inr (by rw [Int.sign_eq_neg_one_of_neg hneg, Int.sign_eq_neg_one_of_neg hlt])
      · exact .inl h0
    · rw [heq, zero_mul, Int.zero_tmod]
      exact .inl rfl
    · have hdvd : 0 < a.numerator * b.denominator := mul_pos hgt hbd
      have hnn := Int.tmod_nonneg (b.numerator * a.denominator) (le_of_lt hdvd)
      rcases lt_or_eq_of_le hnn with hpos | h0
      · exact .inr (by rw [Int.sign_eq_one_of_pos hpos, Int.sign_eq_one_of_pos hgt])
      · exact .inl h0.symm

/-- Witness for C10 at a concrete input with a negative divisor:
`(-7/2) mod (-3/1) = -1/2`, numerator sign matching `a`'s. -/
theorem mod_truncated_semantics_witness :
    (⟨-7, 2⟩ : RationalLiteral).mod ⟨-3, 1⟩ =
      .ok ⟨Int.tmod ((-7) * 1) ((-3) * 2), 2 * 1⟩ ∧
    (Int.tmod ((-7) * 1) ((-3) * 2) = 0 ∨
      (Int.tmod ((-7) * 1) ((-3) * 2)).sign = (-7 : Int).sign) :=
  mod_truncated_semantics ⟨-7, 2⟩ ⟨-3, 1⟩ (by decide) (by decide) (by decide)

/-- Claim C9: the type translator sends `Int` types with more than 251
bits to `Uint256` and all others to `felt`, arrays to the element's
translation followed by `*`, and pointers to the translation of the
pointee; in particular `Int 256 ↦ Uint256`, `Int 8 ↦ felt`,
`Array(Int 8) ↦ felt*` and `Pointer(Array(Bool)) ↦ felt*`. -/
theorem cairoType_int_array_pointer (pp : TypeNode → String) (mangler : String → String)
    (n : Nat) (sg : Bool) (t : TypeNode) (len : Option Nat) (loc : DataLocation) :
    (251 < n → cairoType pp mangler (.intType n sg) = some "Uint256") ∧
    (n ≤ 251 → cairoType pp mangler (.intType n sg) = some "felt") ∧
    cairoType pp mangler (.arrayType t len) =
      (cairoType pp mangler t).map (fun s => s ++ "*") ∧
    cairoType pp mangler (.pointerType t loc) = cairoType pp mangler t ∧
    cairoType pp mangler (.intType 256 sg) = some "Uint256" ∧
    cairoType pp mangler (.intType 8 sg) = some "felt" ∧
    cairoType pp mangler (.arrayType (.intType 8 sg) len) = some "felt*" ∧
    cairoType pp mangler (.pointerType (.arrayType .boolType len) loc) = some "felt*" := by
  refine ⟨fun h => ?_, fun h => ?_, rfl, rfl, rfl, rfl, rfl, rfl⟩
  · show (if 251 < n then some "Uint256" else some "felt") = some "Uint256"
    rw [if_pos h]
  · show (if 251 < n then some "Uint256" else some "felt") = some "felt"
    rw [if_neg (by omega)]

/-- Witness for C9 at the boundary widths 252 and 251. -/
theorem cairoType_int_array_pointer_witness :
    cairoType (fun _ => "") (fun s => s) (.intType 252 false) = some "Uint256" ∧
    cairoType (fun _ => "") (fun s => s) (.intType 251 false) = some "felt" :=
  ⟨(cairoType_int_array_pointer (fun _ => "") (fun s => s) 252 false .boolType none
      .memory).1 (by decide),
   (cairoType_int_array_pointer (fun _ => "") (fun s => s) 251 false .boolType none
      .memory).2.1 (by decide)⟩

/-- Claim C1, evaluated at the failing input: the separator-stripped
`tidiedValue` is used only to choose the branch and the ORIGINAL string is
handed to `BigInt`, so `stringToLiteralValue "1_000"` throws a
SyntaxError (JavaScript's `BigInt('1_000')` rejects the separator)
instead of returning `1000/1`; the hexadecimal example `"0x2a"`, which
contains no separator, does return `42/1`. -/
theorem stringToLiteralValue_separator_bug :
    stringToLiteralValue "1_000" = .error .syntaxError ∧
    stringToLiteralValue "0x2a" = .ok ⟨42, 1⟩ := by
  decide

/-- Claim C3: on an assignment whose left-hand side is an identifier
referencing a state `VariableDeclaration`, `visitAssignment` replaces the
whole assignment by the `storageWrite` helper call applied to the
declaration, the Number literal whose value text is the slot, and the
original right-hand side, recursing into the right-hand side only; and it
fails with an assertion failure when the allocation entry is missing. -/
theorem visitAssignment_storage_write (ctx : Ctx) (node : Assignment)
    (ts nm : String) (declId : Nat) (d : VarDecl) (tbl : Nat → Option Nat)
    (hlhs : node.vLeftHandSide = .identifier ts nm (some declId))
    (hdecl : ctx.declOf declId = some (.varDecl d))
    (hstate : d.stateVariable = true)
    (htbl : ctx.storageAllocations = some tbl) :
    (∀ slot, tbl d.id = some slot →
      visitAssignment ctx node = .ok (.replacedVisitRhs
        (.storageWriteCall d.id (slotLiteral slot) node.vRightHandSide))) ∧
    (tbl d.id = none → visitAssignment ctx node = .error .assertionFailure) := by
  constructor
  · intro slot hslot
    simp only [visitAssignment, hlhs, Option.bind, hdecl, hstate, if_true, htbl, hslot]
  · intro hslot
    simp only [visitAssignment, hlhs, Option.bind, hdecl, hstate, if_true, htbl, hslot]

/-- Witness for C3 at a concrete context and assignment: slot 7 for
declaration 3 produces the `storageWrite` call with the literal `7`. -/
theorem visitAssignment_storage_write_witness :
    visitAssignment
      ⟨fun i => if i = 3 then some (.varDecl ⟨3, "x", "uint256", true, false⟩) else none,
       some (fun i => if i = 3 then some 7 else none),
       fun _ => .boolType⟩
      ⟨.identifier "uint256" "x" (some 3), .literalE "int_const 5" .number "35" "5"⟩ =
      .ok (.replacedVisitRhs (.storageWriteCall 3
        (.literalE "int_const 7" .number "37" "7")
        (.literalE "int_const 5" .number "35" "5"))) := by
  have h := (visitAssignment_storage_write
    ⟨fun i => if i = 3 then some (.varDecl ⟨3, "x", "uint256", true, false⟩) else none,
     some (fun i => if i = 3 then some 7 else none),
     fun _ => .boolType⟩
    ⟨.identifier "uint256" "x" (some 3), .literalE "int_const 5" .number "35" "5"⟩
    "uint256" "x" 3 ⟨3, "x", "uint256", true, false⟩
    (fun i => if i = 3 then some 7 else none)
    rfl rfl rfl rfl).1 7 rfl
  exact h

/-! Lemmas about `enumFrom`, `mapM` and `filterMap` used by the
declaration-splitter claims. -/

theorem enumFrom_mem {α : Type} {k : Nat} {l : List α} {p : Nat × α}
    (h : p ∈ enumFrom k l) : k ≤ p.1 ∧ l[p.1 - k]? = some p.2 := by
  induction l generalizing k with
  | nil => cases h
  | cons a rest ih =>
    rcases List.mem_cons.mp h with h | h
    · subst h
      exact ⟨Nat.le_refl _, by simp⟩
    · obtain ⟨hk, hget⟩ := ih h
      refine ⟨by omega, ?_⟩
      have hj : p.1 - k = (p.1 - (k + 1)) + 1 := by omega
      rw [hj]
      simpa using hget

theorem except_mapM_congr {α β : Type} {l : List α} {f : α → Except Err β} {g : α → β}
    (h : ∀ a ∈ l, f a = .ok (g a)) : l.mapM f = .ok (l.map g) := by
  induction l with
  | nil => rfl
  | cons a rest ih =>
    simp only [List.mapM_cons, h a (List.mem_cons_self a rest),
      ih (fun x hx => h x (List.mem_cons_of_mem a hx)), List.map_cons]
    rfl

theorem filterMap_id_map {α β : Type} (g : α → Option β) (l : List α) :
    (l.map g).filterMap id = l.filterMap g := by
  rw [List.filterMap_map]
  rfl

/-- On each indexed slot, `splitSlot` succeeds and agrees with the
claim-side `tupleSlotSpec`, provided the slot's assignment id (when
present) has a matching declaration and the component list covers the
slot. -/
theorem splitSlot_eq_spec (node : VariableDeclarationStatement)
    (comps : List (Option Expression)) (p : Nat × Option Nat)
    (hc : ∃ c, comps[p.1]? = some c)
    (hfind : ∀ declId, p.2 = some declId →
      (node.vDeclarations.find? (fun d => d.id = declId)).isSome) :
    splitSlot node comps p = .ok (tupleSlotSpec node comps p) := by
  obtain ⟨c, hc⟩ := hc
  rcases p with ⟨i, a⟩
  have hgetD : comps.getD i none = c := by
    simp [List.getD_eq_getElem?_getD, hc]
  rcases a with _ | declId
  · simp only [splitSlot, tupleSlotSpec, hc, hgetD]
    rcases c with _ | e <;> rfl
  · obtain ⟨d0, hd0⟩ := Option.isSome_iff_exists.mp (hfind declId rfl)
    simp only [splitSlot, tupleSlotSpec, hc, hgetD, hd0, Option.map_some]
    rcases c with _ | e <;> rfl

/-- The `TupleExpression` branch of `splitDeclaration` computes exactly
the slot-wise statements described by `tupleSlotSpec`, in slot order. -/
theorem splitTupleExpression_eq_spec (node : VariableDeclarationStatement)
    (comps : List (Option Expression))
    (hfind : (node.assignments.all fun a =>
      match a with
      | none => true
      | some declId => (node.vDeclarations.find? (fun d => d.id = declId)).isSome) = true)
    (harity : comps.length = node.assignments.length) :
    splitTupleExpression node comps =
      .ok ((enumIdx node.assignments).filterMap (tupleSlotSpec node comps)) := by
  have hmapM : (enumIdx node.assignments).mapM (splitSlot node comps) =
      .ok ((enumIdx node.assignments).map (tupleSlotSpec node comps)) := by
    refine except_mapM_congr (fun p hp => ?_)
    obtain ⟨-, hget⟩ := enumFrom_mem hp
    simp only [Nat.sub_zero] at hget
    have hi : p.1 < node.assignments.length := by
      rcases List.getElem?_eq_some.mp hget with ⟨hlt, -⟩
      exact hlt
    refine splitSlot_eq_spec node comps p ⟨comps[p.1], ?_⟩ (fun declId hdecl => ?_)
    · exact List.getElem?_eq_getElem (by omega)
    · have hmem : p.2 ∈ node.assignments := by
        exact List.getElem?_mem hget
      have := List.all_eq_true.mp hfind p.2 hmem
      rw [hdecl] at this
      simpa using this
  unfold splitTupleExpression
  simp only [hmapM]
  rw [filterMap_id_map]

/-- Claim C6: a multi-declaration statement initialised by a tuple
expression splits, in slot order, into nothing for doubly-empty slots, an
`ExpressionStatement` for right-only slots, and a single-declaration
`VariableDeclarationStatement` for bound slots. -/
theorem splitDeclaration_tuple_components (pp : TypeNode → String)
    (typeOf : Expression → TypeNode) (i0 c0 : Nat)
    (node : VariableDeclarationStatement) (comps : List (Option Expression))
    (hlen : 1 < node.vDeclarations.length)
    (hinit : node.vInitialValue = some (.tupleExpression comps))
    (hfind : (node.assignments.all fun a =>
      match a with
      | none => true
      | some declId => (node.vDeclarations.find? (fun d => d.id = declId)).isSome) = true)
    (harity : comps.length = node.assignments.length) :
    splitDeclaration pp typeOf i0 c0 node =
      .ok ((enumIdx node.assignments).filterMap (tupleSlotSpec node comps)) := by
  unfold splitDeclaration
  rw [if_neg (by omega), hinit]
  exact splitTupleExpression_eq_spec node comps hfind harity

/-- Witness for C6 at a concrete statement exercising all three slot
shapes: `(a, , b) = (4, , 5)` with an extra empty middle slot. -/
theorem splitDeclaration_tuple_components_witness :
    splitDeclaration (fun _ => "T") (fun _ => .boolType) 100 0
      ⟨[some 1, none, some 2],
       [⟨1, "a", "uint8", false, false⟩, ⟨2, "b", "uint16", false, false⟩],
       some (.tupleExpression [some (.literalE "int_const 4" .number "34" "4"), none,
         some (.literalE "int_const 5" .number "35" "5")]),
       some "doc", some "raw"⟩ =
      .ok [.varDeclStatement ⟨[some 1], [⟨1, "a", "uint8", false, false⟩],
             some (.literalE "int_const 4" .number "34" "4"), some "doc", some "raw"⟩,
           .varDeclStatement ⟨[some 2], [⟨2, "b", "uint16", false, false⟩],
             some (.literalE "int_const 5" .number "35" "5"), none, none⟩] := by
  have h := splitDeclaration_tuple_components (fun _ => "T") (fun _ => .boolType) 100 0
    ⟨[some 1, none, some 2],
     [⟨1, "a", "uint8", false, false⟩, ⟨2, "b", "uint16", false, false⟩],
     some (.tupleExpression [some (.literalE "int_const 4" .number "34" "4"), none,
       some (.literalE "int_const 5" .number "35" "5")]),
     some "doc", some "raw"⟩
    [some (.literalE "int_const 4" .number "34" "4"), none,
     some (.literalE "int_const 5" .number "35" "5")]
    (by decide) rfl (by decide) rfl
  exact h

/-- A non-zero tuple index never receives the statement's `documentation`
or `raw` annotations. -/
theorem tupleSlotSpec_doc_of_ne_zero {node : VariableDeclarationStatement}
    {comps : List (Option Expression)} {p : Nat × Option Nat} {s : Statement}
    (hp : p.1 ≠ 0) (h : tupleSlotSpec node comps p = some s) :
    docOf s = none ∧ rawOf s = none := by
  unfold tupleSlotSpec at h
  split at h
  · cases h
  · simp only [Option.some.injEq] at h
    subst h
    simp [docOf, rawOf, hp]
  · rcases Option.map_eq_some'.mp h with ⟨d0, hfd, rfl⟩
    simp [docOf, rawOf, hp]

/-- The slot at tuple index 0 carries the statement's `documentation` and
`raw` annotations whenever it emits a statement. -/
theorem tupleSlotSpec_doc_of_zero {node : VariableDeclarationStatement}
    {comps : List (Option Expression)} {a0 : Option Nat} {s : Statement}
    (h : tupleSlotSpec node comps (0, a0) = some s) :
    docOf s = node.documentation ∧ rawOf s = node.raw := by
  unfold tupleSlotSpec at h
  split at h
  · cases h
  · simp only [Option.some.injEq] at h
    subst h
    simp [docOf, rawOf]
  · rcases Option.map_eq_some'.mp h with ⟨d0, hfd, rfl⟩
    simp [docOf, rawOf]

/-- Claim C7 (amended): in the tuple split the `documentation` and `raw`
annotations go to the statement emitted for tuple index 0 when that slot
emits one — in which case it is the first emitted statement — and to no
statement emitted for a later slot; when slot 0 emits nothing (both its
assignment id and its component are null), no emitted statement carries
them. -/
theorem splitDeclaration_doc_first_slot (pp : TypeNode → String)
    (typeOf : Expression → TypeNode) (i0 c0 : Nat)
    (node : VariableDeclarationStatement) (comps : List (Option Expression))
    (a0 : Option Nat) (rest : List (Option Nat))
    (hlen : 1 < node.vDeclarations.length)
    (hinit : node.vInitialValue = some (.tupleExpression comps))
    (hfind : (node.assignments.all fun a =>
      match a with
      | none => true
      | some declId => (node.vDeclarations.find? (fun d => d.id = declId)).isSome) = true)
    (harity : comps.length = node.assignments.length)
    (hcons : node.assignments = a0 :: rest) :
    splitDeclaration pp typeOf i0 c0 node =
      .ok (((0, a0) :: enumFrom 1 rest).filterMap (tupleSlotSpec node comps)) ∧
    (∀ s ∈ (enumFrom 1 rest).filterMap (tupleSlotSpec node comps),
      docOf s = none ∧ rawOf s = none) ∧
    (∀ s, tupleSlotSpec node comps (0, a0) = some s →
      ((0, a0) :: enumFrom 1 rest).filterMap (tupleSlotSpec node comps) =
        s :: (enumFrom 1 rest).filterMap (tupleSlotSpec node comps) ∧
      docOf s = node.documentation ∧ rawOf s = node.raw) ∧
    (tupleSlotSpec node comps (0, a0) = none →
      ((0, a0) :: enumFrom 1 rest).filterMap (tupleSlotSpec node comps) =
        (enumFrom 1 rest).filterMap (tupleSlotSpec node comps)) := by
  refine ⟨?_, ?_, ?_, ?_⟩
  · unfold splitDeclaration
    rw [if_neg (by omega), hinit]
    have h2 := splitTupleExpression_eq_spec node comps hfind harity
    rw [hcons] at h2
    exact h2
  · intro s hs
    rcases List.mem_filterMap.mp hs with ⟨p, hp, hps⟩
    obtain ⟨hk, -⟩ := enumFrom_mem hp
    exact tupleSlotSpec_doc_of_ne_zero (by omega) hps
  · intro s hs
    obtain ⟨hd, hr⟩ := tupleSlotSpec_doc_of_zero hs
    refine ⟨?_, hd, hr⟩
    rw [List.filterMap_cons, hs]
  · intro h0
    rw [List.filterMap_cons, h0]

/-- Witness for the amended C7: the tuple split of a statement whose first
slot is bound, applied at a concrete input. -/
theorem splitDeclaration_doc_first_slot_witness :
    splitDeclaration (fun _ => "T") (fun _ => .boolType) 100 0
      ⟨[some 1, none, some 2],
       [⟨1, "a", "uint8", false, false⟩, ⟨2, "b", "uint16", false, false⟩],
       some (.tupleExpression [some (.literalE "int_const 4" .number "34" "4"), none,
         some (.literalE "int_const 5" .number "35" "5")]),
       some "doc", some "raw"⟩ =
      .ok (((0, some 1) :: enumFrom 1 [none, some 2]).filterMap
        (tupleSlotSpec
          ⟨[some 1, none, some 2],
           [⟨1, "a", "uint8", false, false⟩, ⟨2, "b", "uint16", false, false⟩],
           some (.tupleExpression [some (.literalE "int_const 4" .number "34" "4"), none,
             some (.literalE "int_const 5" .number "35" "5")]),
           some "doc", some "raw"⟩
          [some (.literalE "int_const 4" .number "34" "4"), none,
           some (.literalE "int_const 5" .number "35" "5")])) :=
  (splitDeclaration_doc_first_slot (fun _ => "T") (fun _ => .boolType) 100 0
    ⟨[some 1, none, some 2],
     [⟨1, "a", "uint8", false, false⟩, ⟨2, "b", "uint16", false, false⟩],
     some (.tupleExpression [some (.literalE "int_const 4" .number "34" "4"), none,
       some (.literalE "int_const 5" .number "35" "5")]),
     some "doc", some "raw"⟩
    [some (.literalE "int_const 4" .number "34" "4"), none,
     some (.literalE "int_const 5" .number "35" "5")]
    (some 1) [none, some 2] (by decide) rfl (by decide) rfl rfl).1

/-- Counterexample to claim C7 as stated: the original statement carries
`documentation` `some "doc"` and `raw` `some "raw"`, its first tuple slot
is empty on both sides (and so emits nothing), and NO emitted statement —
in particular not the first one — carries the annotations: both emitted
statements have `none` in both fields. -/
theorem splitDeclaration_doc_lost_counterexample :
    splitDeclaration (fun _ => "T") (fun _ => .boolType) 100 0
      ⟨[none, some 1, some 2],
       [⟨1, "a", "uint8", false, false⟩, ⟨2, "b", "uint16", false, false⟩],
       some (.tupleExpression [none, some (.literalE "int_const 4" .number "34" "4"),
         some (.literalE "int_const 5" .number "35" "5")]),
       some "doc", some "raw"⟩ =
      .ok [.varDeclStatement ⟨[some 1], [⟨1, "a", "uint8", false, false⟩],
             some (.literalE "int_const 4" .number "34" "4"), none, none⟩,
           .varDeclStatement ⟨[some 2], [⟨2, "b", "uint16", false, false⟩],
             some (.literalE "int_const 5" .number "35" "5"), none, none⟩] := by
  rfl

/-- Claim C8 (amended): with more than one declaration, an initialiser
that is neither a `FunctionCall` nor a `TupleExpression` makes
`splitDeclaration` throw TranspileFailed.  (A `FunctionCall` initialiser
whose return type is not a tuple is excluded: it returns the statement
unchanged, see the counterexample.) -/
theorem splitDeclaration_other_initialiser (pp : TypeNode → String)
    (typeOf : Expression → TypeNode) (i0 c0 : Nat)
    (node : VariableDeclarationStatement) (iv : Expression)
    (hlen : 1 < node.vDeclarations.length)
    (hinit : node.vInitialValue = some iv)
    (hfc : ∀ args, iv ≠ .functionCall args)
    (hte : ∀ comps, iv ≠ .tupleExpression comps) :
    splitDeclaration pp typeOf i0 c0 node = .error .transpileFailed := by
  unfold splitDeclaration
  rw [if_neg (by omega), hinit]
  cases iv <;> first
    | rfl
    | exact absurd rfl (hfc _)
    | exact absurd rfl (hte _)

/-- Witness for the amended C8: a two-declaration statement initialised by
a plain literal fails with TranspileFailed. -/
theorem splitDeclaration_other_initialiser_witness :
    splitDeclaration (fun _ => "T") (fun _ => .boolType) 0 0
      ⟨[some 1, some 2],
       [⟨1, "a", "uint8", false, false⟩, ⟨2, "b", "uint16", false, false⟩],
       some (.literalE "int_const 4" .number "34" "4"), none, none⟩ =
      .error .transpileFailed :=
  splitDeclaration_other_initialiser (fun _ => "T") (fun _ => .boolType) 0 0
    ⟨[some 1, some 2],
     [⟨1, "a", "uint8", false, false⟩, ⟨2, "b", "uint16", false, false⟩],
     some (.literalE "int_const 4" .number "34" "4"), none, none⟩
    (.literalE "int_const 4" .number "34" "4") (by decide) rfl
    (fun _ h => nomatch h) (fun _ h => nomatch h)

/-- Counterexample to claim C8 as stated: a two-declaration statement
whose initialiser is a `FunctionCall` with a non-tuple return type — an
initialiser that is "neither a function call returning a Tuple type nor a
TupleExpression" — does NOT fail with TranspileFailed: `splitDeclaration`
returns the statement unchanged. -/
theorem splitDeclaration_nontuple_call_counterexample :
    splitDeclaration (fun _ => "T") (fun _ => .boolType) 0 0
      ⟨[some 1, some 2],
       [⟨1, "a", "uint8", false, false⟩, ⟨2, "b", "uint16", false, false⟩],
       some (.functionCall []), none, none⟩ =
      .ok [.varDeclStatement
        ⟨[some 1, some 2],
         [⟨1, "a", "uint8", false, false⟩, ⟨2, "b", "uint16", false, false⟩],
         some (.functionCall []), none, none⟩] ∧
    splitDeclaration (fun _ => "T") (fun _ => .boolType) 0 0
      ⟨[some 1, some 2],
       [⟨1, "a", "uint8", false, false⟩, ⟨2, "b", "uint16", false, false⟩],
       some (.functionCall []), none, none⟩ ≠ .error .transpileFailed := by
  refine ⟨rfl, fun h => ?_⟩
  have h2 : (Except.ok [Statement.varDeclStatement
      ⟨[some 1, some 2],
       [⟨1, "a", "uint8", false, false⟩, ⟨2, "b", "uint16", false, false⟩],
       some (.functionCall []), none, none⟩] : Except Err (List Statement)) =
      .error .transpileFailed := h
  exact Except.noConfusion h2

/-! Character-level lemmas for the round-trip claim: every character of a
printed rational is a decimal digit, `-` or `/`, and `BigInt` rejects any
string containing `/`. -/

theorem digitChar_mem (d : Nat) :
    digitChar d ∈ ['0', '1', '2', '3', '4', '5', '6', '7', '8', '9'] := by
  unfold digitChar
  split_ifs <;> decide

theorem natDigitsAux_mem {c : Char} : ∀ {fuel n : Nat}, c ∈ natDigitsAux fuel n →
    c ∈ ['0', '1', '2', '3', '4', '5', '6', '7', '8', '9'] := by
  intro fuel
  induction fuel with
  | zero => intro n h; cases h
  | succ f ih =>
    intro n h
    unfold natDigitsAux at h
    split_ifs at h
    · rcases List.mem_singleton.mp h with rfl
      exact digitChar_mem n
    · rcases List.mem_append.mp h with h | h
      · exact ih h
      · rcases List.mem_singleton.mp h with rfl
        exact digitChar_mem _

theorem intDecChars_mem {c : Char} {z : Int} (h : c ∈ intDecChars z) :
    c ∈ ['0', '1', '2', '3', '4', '5', '6', '7', '8', '9', '-'] := by
  unfold intDecChars natDecChars at h
  split_ifs at h
  · rcases List.mem_cons.mp h with rfl | h
    · decide
    · have h2 := natDigitsAux_mem h
      fin_cases h2 <;> decide
  · have h2 := natDigitsAux_mem h
    fin_cases h2 <;> decide

theorem toString_chars {r : RationalLiteral} {c : Char}
    (h : c ∈ (RationalLiteral.toString r).data) :
    c ∈ ['0', '1', '2', '3', '4', '5', '6', '7', '8', '9', '-', '/'] := by
  have h2 : c ∈ intDecChars r.numerator ++ '/' :: intDecChars r.denominator := h
  rcases List.mem_append.mp h2 with h3 | h3
  · have h4 := intDecChars_mem h3
    fin_cases h4 <;> decide
  · rcases List.mem_cons.mp h3 with rfl | h3
    · decide
    · have h4 := intDecChars_mem h3
      fin_cases h4 <;> decide

theorem mem_dropWhile_of_not {p : Char → Bool} {c : Char} :
    ∀ {l : List Char}, c ∈ l → p c = false → c ∈ l.dropWhile p := by
  intro l
  induction l with
  | nil => intro h _; cases h
  | cons a rest ih =>
    intro h hp
    rw [List.dropWhile_cons]
    split_ifs with ha
    · rcases List.mem_cons.mp h with rfl | h
      · rw [hp] at ha; cases ha
      · exact ih h hp
    · exact h

theorem mem_trimWS {c : Char} {l : List Char} (h : c ∈ l) (hc : isJsSpace c = false) :
    c ∈ trimWS l := by
  unfold trimWS
  rw [List.mem_reverse]
  apply mem_dropWhile_of_not _ hc
  rw [List.mem_reverse]
  exact mem_dropWhile_of_not h hc

theorem digitsValGo_eq_none {base : Nat} {c : Char} (hc : digitVal base c = none) :
    ∀ {l : List Char} {acc : Nat}, c ∈ l → digitsValGo base acc l = none := by
  intro l
  induction l with
  | nil => intro acc h; cases h
  | cons a rest ih =>
    intro acc h
    rcases List.mem_cons.mp h with rfl | h
    · simp [digitsValGo, hc]
    · unfold digitsValGo
      cases hd : digitVal base a
      · rfl
      · exact ih h

theorem digitsVal_eq_none {base : Nat} {c : Char} {l : List Char}
    (hc : digitVal base c = none) (h : c ∈ l) : digitsVal base l = none := by
  cases l with
  | nil => cases h
  | cons a rest =>
    show digitsValGo base 0 (a :: rest) = none
    exact digitsValGo_eq_none hc h

theorem digitsVal_drop_none {cs pre : List Char} {base k : Nat}
    (hpre : pre.isPrefixOf cs = true) (hk : pre.length = k)
    (hmem : ('/' : Char) ∈ cs) (hnp : ('/' : Char) ∉ pre)
    (hdv : digitVal base '/' = none) :
    digitsVal base (cs.drop k) = none := by
  obtain ⟨t, ht⟩ := List.isPrefixOf_iff_prefix.mp hpre
  rw [← ht] at hmem
  rw [← ht, ← hk, List.drop_left]
  rcases List.mem_append.mp hmem with h | h
  · exact absurd h hnp
  · exact digitsVal_eq_none hdv h

theorem jsBigInt_slash_none {s : String} (h : ('/' : Char) ∈ s.data) :
    jsBigInt s = none := by
  have htrim : ('/' : Char) ∈ trimWS s.data := mem_trimWS h (by decide)
  simp only [jsBigInt]
  rw [if_neg (List.ne_nil_of_mem htrim)]
  split_ifs with h1 h2 h3 h4 h5 h6 h7 h8
  · rw [digitsVal_drop_none h1 (by decide) htrim (by decide) (by decide)]
    rfl
  · rw [digitsVal_drop_none h2 (by decide) htrim (by decide) (by decide)]
    rfl
  · rw [digitsVal_drop_none h3 (by decide) htrim (by decide) (by decide)]
    rfl
  · rw [digitsVal_drop_none h4 (by decide) htrim (by decide) (by decide)]
    rfl
  · rw [digitsVal_drop_none h5 (by decide) htrim (by decide) (by decide)]
    rfl
  · rw [digitsVal_drop_none h6 (by decide) htrim (by decide) (by decide)]
    rfl
  · rw [digitsVal_drop_none h7 (by decide) htrim (by decide) (by decide)]
    rfl
  · rw [digitsVal_drop_none h8 (by decide) htrim (by decide) (by decide)]
    rfl
  · rw [digitsVal_eq_none (by decide) htrim]
    rfl

/-- Claim C4 (amended): the printed form of a parsed literal never
re-parses: `toString` prints `numerator/denominator` and the parser's
integer branch — which the all-digit (plus optional `-`) printed form
always reaches — rejects the `/`, so
`stringToLiteralValue (stringToLiteralValue s |> toString)` raises a
SyntaxError rather than returning an equal value. -/
theorem parse_toString_fails (s : String) (r : RationalLiteral)
    (_h : stringToLiteralValue s = .ok r) :
    stringToLiteralValue (RationalLiteral.toString r) = .error .syntaxError := by
  have hslash : ('/' : Char) ∈ (RationalLiteral.toString r).data :=
    List.mem_append_right _ (List.mem_cons_self _ _)
  have hts : String.mk ((RationalLiteral.toString r).data.filter (fun c => c != '_')) =
      RationalLiteral.toString r := by
    have hfe : (RationalLiteral.toString r).data.filter (fun c => c != '_') =
        (RationalLiteral.toString r).data := by
      rw [List.filter_eq_self]
      intro a ha
      have h2 := toString_chars ha
      fin_cases h2 <;> decide
    rw [hfe]
  have h0x : jsStartsWith (RationalLiteral.toString r) "0x" = false := by
    unfold jsStartsWith
    cases hpre : List.isPrefixOf "0x".data (RationalLiteral.toString r).data with
    | false => rfl
    | true =>
      obtain ⟨t, ht⟩ := List.isPrefixOf_iff_prefix.mp hpre
      have hx : ('x' : Char) ∈ (RationalLiteral.toString r).data := by
        rw [← ht]
        exact List.mem_append_left _ (by decide)
      exact absurd (toString_chars hx) (by decide)
  have he : jsIncludes (RationalLiteral.toString r) 'e' = false := by
    unfold jsIncludes
    rw [decide_eq_false_iff_not]
    intro hmem
    exact absurd (toString_chars hmem) (by decide)
  have hd : jsIncludes (RationalLiteral.toString r) '.' = false := by
    unfold jsIncludes
    rw [decide_eq_false_iff_not]
    intro hmem
    exact absurd (toString_chars hmem) (by decide)
  simp only [stringToLiteralValue, hts, h0x, he, hd, Bool.false_eq_true, if_false]
  unfold intToLiteral
  rw [jsBigInt_slash_none hslash]

/-- Witness for the amended C4 at the concrete literal `"1"`:
parsing the printed form `1/1` raises a SyntaxError. -/
theorem parse_toString_fails_witness :
    stringToLiteralValue (RationalLiteral.toString ⟨1, 1⟩) = .error .syntaxError :=
  parse_toString_fails "1" ⟨1, 1⟩ (by decide)

/-- Counterexample to claim C4 as stated: the parser accepts `"1"`
(returning `1/1`), but feeding the printed form `"1/1"` back through the
parser does not succeed — it raises a SyntaxError — so the round-trip
property fails at `s = "1"`. -/
theorem parse_toString_counterexample :
    stringToLiteralValue "1" = .ok ⟨1, 1⟩ ∧
    stringToLiteralValue (RationalLiteral.toString ⟨1, 1⟩) = .error .syntaxError := by
  decide
